import Mathlib

/-!
Verification development for the learnmcp-xapi backend-client subsystem.

This file contains a shallow embedding of the parts of the repository that
the verified claims are about:

* `src/learnmcp_xapi/verbs.py` — the verb alias table and `get_verb`;
* `src/learnmcp_xapi/mcp/validator.py` — `is_valid_iri`;
* `src/learnmcp_xapi/mcp/core.py` — `_build_score`, `_calculate_success`,
  `record_statement` (input validation, statement assembly, extensions
  rewriting) and the limit clamping in `get_statements`;
* `src/learnmcp_xapi/plugins/lrsql.py`, `veracity.py`, `ralph.py` — the
  per-backend `_retry_request` loops, `post_statement` response
  normalization, the `get_statements` limit parameter, the Veracity
  endpoint normalization and the Ralph OIDC token cache.

Modelling conventions:

* Python JSON values are modelled by the inductive type `JVal`; Python
  dicts are association lists in insertion order, with `dictInsert`
  mirroring Python dict assignment (update keeps the original position).
* Python numbers (both `int` and `float`) are modelled as rationals; the
  `int`/`float` type distinction, where the source branches on it
  (`isinstance(level, int)`), is carried by the `PyNum` inductive.
* `str(x)` on JSON-decoded Python values is modelled by `pyStr`/`pyRepr`;
  numeric rendering uses the rational `toString`, which agrees with
  Python on integers (no verified statement depends on the rendering of
  a non-integer number).
* Async requests are modelled by an environment function giving the
  outcome of each attempt; sleeps are recorded, not performed.
* External collaborators that are not part of the repository (the
  `json.loads` parser, the `jsonschema` validator) are parameters of the
  embedded functions.
-/

namespace LearnMcp

/-- JSON values as decoded by `response.json()` / `json.loads`. -/
inductive JVal where
  | jnull : JVal
  | jbool (b : Bool) : JVal
  | jnum (q : Rat) : JVal
  | jstr (s : String) : JVal
  | jarr (xs : List JVal) : JVal
  | jobj (kvs : List (String × JVal)) : JVal

mutual

/-- Python `repr` of a JSON-decoded value (as used by `str` on containers). -/
def pyRepr : JVal → String
  | .jnull => "None"
  | .jbool b => if b then "True" else "False"
  | .jnum q => toString q
  | .jstr s => "\x27" ++ s ++ "\x27"
  | .jarr xs => "[" ++ pyReprList xs ++ "]"
  | .jobj kvs => "\x7b" ++ pyReprObj kvs ++ "\x7d"

/-- Comma-separated `repr` of list elements. -/
def pyReprList : List JVal → String
  | [] => ""
  | [x] => pyRepr x
  | x :: xs => pyRepr x ++ ", " ++ pyReprList xs

/-- Comma-separated `repr` of dict entries. -/
def pyReprObj : List (String × JVal) → String
  | [] => ""
  | [(k, v)] => "\x27" ++ k ++ "\x27: " ++ pyRepr v
  | (k, v) :: kvs => "\x27" ++ k ++ "\x27: " ++ pyRepr v ++ ", " ++ pyReprObj kvs

end

/-- Python `str` of a JSON-decoded value: the string itself for strings,
`repr`-style rendering otherwise. -/
def pyStr : JVal → String
  | .jstr s => s
  | v => pyRepr v

/-- Python dict lookup `d.get(k, default)` on an association list. -/
def dictGet (kvs : List (String × JVal)) (k : String) (default : JVal) : JVal :=
  match kvs.find? (fun kv => kv.1 = k) with
  | some kv => kv.2
  | none => default

/-- Python dict assignment `d[k] = v`: updates the entry in place if the key
is present (keeping its position), otherwise appends it. -/
def dictInsert (k : String) (v : JVal) : List (String × JVal) → List (String × JVal)
  | [] => [(k, v)]
  | (k', v') :: rest => if k' = k then (k, v) :: rest else (k', v') :: dictInsert k v rest

/-- A verb definition from `verbs.py`: an id URI and a display map. -/
structure VerbDef where
  id : String
  display : List (String × String)
  deriving DecidableEq

/-- The `VERBS` table of `verbs.py`. -/
def VERBS : List (String × VerbDef) :=
  [ ("experienced", ⟨"http://adlnet.gov/expapi/verbs/experienced", [("en-US", "experienced")]⟩),
    ("practiced", ⟨"http://adlnet.gov/expapi/verbs/practiced", [("en-US", "practiced")]⟩),
    ("achieved", ⟨"http://adlnet.gov/expapi/verbs/achieved", [("en-US", "achieved")]⟩),
    ("mastered", ⟨"http://adlnet.gov/expapi/verbs/mastered", [("en-US", "mastered")]⟩) ]

/-- `get_verb` from `verbs.py`: `none` models the `KeyError` raised for an
unknown alias. -/
def get_verb (verbAlias : String) : Option VerbDef :=
  match VERBS.find? (fun kv => kv.1 = verbAlias) with
  | some kv => some kv.2
  | none => none

/-- `is_valid_iri` from `mcp/validator.py`: non-empty string containing
`"://"` or starting with `"urn:"`. -/
def is_valid_iri (iri : String) : Bool :=
  iri.length > 0 && (containsSub "://".data iri.data || "urn:".data.isPrefixOf iri.data)
where
  /-- substring containment on character lists (Python `in` on `str`). -/
  containsSub (needle hay : List Char) : Bool :=
    hay.tails.any (fun t => needle.isPrefixOf t)

/-- A Python number argument, keeping the `int` / `float` type distinction
that `isinstance(level, int)` branches on. -/
inductive PyNum where
  | int (n : Int) : PyNum
  | float (q : Rat) : PyNum
  deriving DecidableEq

/-- An xAPI score object `{raw, min, max}` (numeric values as rationals). -/
structure ScoreObj where
  raw : Rat
  min : Rat
  max : Rat
  deriving DecidableEq

/-- Python `float(x)` on a JSON-decoded value. Numbers convert to
themselves and booleans to 0/1, as in Python. Other values are modelled as
a conversion error (`ValueError`); this is faithful except that Python
also converts numeric strings, a branch no verified statement exercises. -/
def pyFloat : JVal → Except String Rat
  | .jnum q => .ok q
  | .jbool b => .ok (if b then 1 else 0)
  | _ => .error "could not convert value to float"

/-- `_build_score` from `mcp/core.py`: an integer level in `[0, 3]` gives a
discrete score `{raw: level, min: 0, max: 3}`; any other number gives
`{raw: float(level), min: 0, max: float(extras.get(score_max, 100))}`.
The error carries the `ValueError` message from a failed `float()`. -/
def _build_score (level : PyNum) (extras : List (String × JVal)) : Except String ScoreObj :=
  match level with
  | .int n =>
    if 0 ≤ n ∧ n ≤ 3 then
      .ok ⟨(n : Rat), 0, 3⟩
    else
      buildDecimal (n : Rat) extras
  | .float q => buildDecimal q extras
where
  /-- the decimal-score branch of `_build_score`. -/
  buildDecimal (raw : Rat) (extras : List (String × JVal)) : Except String ScoreObj :=
    match pyFloat (dictGet extras "score_max" (.jnum 100)) with
    | .ok m => .ok ⟨raw, 0, m⟩
    | .error e => .error e

/-- `_calculate_success` from `mcp/core.py`: `raw >= 2` when `max == 3`,
otherwise `raw >= 0.6 * max`. -/
def _calculate_success (score : ScoreObj) : Bool :=
  if score.max = 3 then
    decide (2 ≤ score.raw)
  else
    decide ((0.6 : Rat) * score.max ≤ score.raw)

/-- A FastAPI `HTTPException`: status code and detail message. -/
structure HErr where
  status : Nat
  detail : String
  deriving DecidableEq

/-- An error escaping `record_statement`: an `HTTPException`, or an
uncaught Python `AttributeError` (reachable only when `extras` decodes to
a non-dict, non-null JSON value and a level is supplied). -/
inductive RsError where
  | http (e : HErr) : RsError
  | attributeError : RsError
  deriving DecidableEq

/-- The `extras` argument of `record_statement`
(`Optional[Union[Dict[str, Any], str]]`). -/
inductive ExtrasArg where
  | none : ExtrasArg
  | dict (d : List (String × JVal)) : ExtrasArg
  | str (s : String) : ExtrasArg

/-- The result block of an assembled statement:
`{score, success, extensions?}`. -/
structure RsBlock where
  score : ScoreObj
  success : Bool
  extensions : Option (List (String × JVal))

/-- An assembled xAPI statement as built by `record_statement`
(`actor.account.homePage` and `context.platform` are fixed constants in
the source and are not repeated here). -/
structure XStatement where
  actorName : String
  verb : VerbDef
  objectId : String
  timestamp : String
  result : Option RsBlock

/-- The fixed extension-namespace IRI prefixed to non-`http` keys. -/
def extensionNamespace : String := "https://learnmcp.example.com/extensions/"

/-- Python `s.startswith(pre)` as a character-list prefix test. -/
def pyStartsWith (s pre : String) : Bool :=
  pre.data.isPrefixOf s.data

/-- The extension-key rewriting of `record_statement`: keys starting with
`"http"` are kept, others are prefixed with the extension namespace. -/
def rewriteExtensionKey (k : String) : String :=
  if pyStartsWith k "http" then k else extensionNamespace ++ k

/-- The extensions-building loop of `record_statement`: every `extras`
entry except `score_max` is written into a fresh dict under its rewritten
key. -/
def buildExtensions (extras : List (String × JVal)) : List (String × JVal) :=
  extras.foldl
    (fun acc kv => if kv.1 = "score_max" then acc else dictInsert (rewriteExtensionKey kv.1) kv.2 acc)
    []

/-- The extras-parsing step of `record_statement`: a string argument goes
through `json.loads` (modelled by `parseJson`, `none` = parse failure);
`json.loads` returning JSON `null` yields Python `None`, which — like an
absent `extras` — is then replaced by `{}`. -/
def parseExtrasArg (parseJson : String → Option JVal) (extras : ExtrasArg) :
    Except RsError JVal :=
  match extras with
  | .str s =>
    match parseJson s with
    | none => .error (.http ⟨400, "extras must be valid JSON"⟩)
    | some .jnull => .ok (.jobj [])
    | some j => .ok j
  | .dict d => .ok (.jobj d)
  | .none => .ok (.jobj [])

/-- The result-block construction of `record_statement` when a level is
provided. `_build_score` touches `extras.get` only on its decimal branch,
and the extensions loop touches `extras.items()` in every case, so a
non-dict `extras` raises an uncaught `AttributeError` either way; a
`ValueError` from `_build_score` is caught and mapped to a 400. -/
def buildResultBlock (lv : PyNum) (pyExtras : JVal) : Except RsError RsBlock :=
  match pyExtras with
  | .jobj kvs =>
    match _build_score lv kvs with
    | .error msg => .error (.http ⟨400, msg⟩)
    | .ok score =>
      let exts := buildExtensions kvs
      .ok ⟨score, _calculate_success score, if exts.isEmpty then none else some exts⟩
  | _ => .error .attributeError

/-- The validation and assembly phase of `record_statement` from
`mcp/core.py`, everything before the network call, in source order:
extras parsing, verb lookup, IRI check, statement assembly, optional
result block, schema validation. `validate` models the external
`jsonschema` validator (`some msg` = schema violation); `now` is the
generated timestamp. -/
def recordStatementCore
    (parseJson : String → Option JVal)
    (validate : XStatement → Option String)
    (now : String)
    (actorUuid verb objectId : String)
    (level : Option PyNum) (extras : ExtrasArg) : Except RsError XStatement :=
  match parseExtrasArg parseJson extras with
  | .error e => .error e
  | .ok pyExtras =>
    match get_verb verb with
    | none => .error (.http ⟨400, "Unknown verb: " ++ verb⟩)
    | some verbDef =>
      if !is_valid_iri objectId then
        .error (.http ⟨400, "object_id must be a valid IRI"⟩)
      else
        match
          match level with
          | none => Except.ok Option.none
          | some lv =>
            match buildResultBlock lv pyExtras with
            | .error e => .error e
            | .ok rb => .ok (some rb)
        with
        | .error e => .error e
        | .ok result =>
          let st : XStatement := ⟨actorUuid, verbDef, objectId, now, result⟩
          match validate st with
          | some msg => .error (.http ⟨400, "Invalid xAPI statement: " ++ msg⟩)
          | none => .ok st

/-- `record_statement` from `mcp/core.py`: the validation/assembly phase
followed by the backend `post_statement` call (modelled by `post`). -/
def record_statement
    (parseJson : String → Option JVal)
    (validate : XStatement → Option String)
    (now : String)
    (post : XStatement → Except HErr JVal)
    (actorUuid verb objectId : String)
    (level : Option PyNum) (extras : ExtrasArg) : Except RsError JVal :=
  match recordStatementCore parseJson validate now actorUuid verb objectId level extras with
  | .error e => .error e
  | .ok st =>
    match post st with
    | .error e => .error (.http e)
    | .ok r => .ok r

/-- Number of requests that reach the backend during a `record_statement`
call: one if and only if assembly and validation succeed. -/
def recordNetworkCalls
    (parseJson : String → Option JVal)
    (validate : XStatement → Option String)
    (now : String)
    (actorUuid verb objectId : String)
    (level : Option PyNum) (extras : ExtrasArg) : Nat :=
  match recordStatementCore parseJson validate now actorUuid verb objectId level extras with
  | .error _ => 0
  | .ok _ => 1

/-- The limit clamp in `get_statements` from `mcp/core.py`:
`if limit > 50: limit = 50`. -/
def coreEnforceLimit (limit : Int) : Int :=
  if limit > 50 then 50 else limit

/-- The `limit` query parameter built by `lrsql.py`'s `get_statements`:
`min(limit, 50)`. -/
def lrsqlParamsLimit (limit : Int) : Int := min limit 50

/-- The `limit` query parameter built by `ralph.py`'s `get_statements`:
`min(limit, 50)`. -/
def ralphParamsLimit (limit : Int) : Int := min limit 50

/-- The `limit` query parameter built by `veracity.py`'s `get_statements`:
`min(limit, 50)`. -/
def veracityParamsLimit (limit : Int) : Int := min limit 50

/-- Response normalization in `lrsql.py`'s `post_statement`: an array is
wrapped as `{id: first-element-or-unknown, stored: true}`, a dict is
returned as-is, anything else is wrapped as `{id: str(result),
stored: true}`. -/
def lrsqlPostNormalize (result : JVal) : JVal :=
  match result with
  | .jarr xs => .jobj [("id", xs.headD (.jstr "unknown")), ("stored", .jbool true)]
  | .jobj kvs => .jobj kvs
  | v => .jobj [("id", .jstr (pyStr v)), ("stored", .jbool true)]

/-- Response normalization in `veracity.py`'s `post_statement`: same
three-way handling as `lrsql.py`. -/
def veracityPostNormalize (result : JVal) : JVal :=
  match result with
  | .jarr xs => .jobj [("id", xs.headD (.jstr "unknown")), ("stored", .jbool true)]
  | .jobj kvs => .jobj kvs
  | v => .jobj [("id", .jstr (pyStr v)), ("stored", .jbool true)]

/-- Response normalization in `ralph.py`'s `post_statement`: an array is
wrapped as `{id: first-element-or-unknown, stored: true}`; every other
response — dicts included — falls into the fallback branch and is wrapped
as `{id: str(result), stored: true}`. -/
def ralphPostNormalize (result : JVal) : JVal :=
  match result with
  | .jarr xs => .jobj [("id", xs.headD (.jstr "unknown")), ("stored", .jbool true)]
  | v => .jobj [("id", .jstr (pyStr v)), ("stored", .jbool true)]

/-- The outcome of one request attempt, as seen by `_retry_request`:
a 2xx response with a JSON body, an `httpx.HTTPStatusError` with status
code and response text, or an `httpx.RequestError` (transport failure). -/
inductive Outcome where
  | ok (body : JVal) : Outcome
  | httpErr (code : Nat) (text : String) : Outcome
  | reqErr : Outcome

/-- The backoff schedule shared by every backend's `_retry_request`. -/
def backoffDelays : List Rat := [0.5, 1.0, 2.0]

/-- `backoff_delays[min(attempt, len(backoff_delays) - 1)]`. -/
def backoffDelay (attempt : Nat) : Rat :=
  backoffDelays.getD (min attempt (backoffDelays.length - 1)) 0

/-- The observable trace of one `_retry_request` call for the basic-auth
backends: final result (`none` only when `max_attempts = 0`, where the
Python loop body never runs and the function returns `None`), number of
attempts made, and the sleeps performed between attempts. -/
structure RetryResult where
  result : Option (Except HErr JVal)
  attempts : Nat
  sleeps : List Rat

/-- One loop of `_retry_request` as written in `lrsql.py` and
`veracity.py` (the two differ only in log text and in the `detail`
string of the raised `HTTPException`): `attempt` is the current loop
index, `fuel` the remaining iterations (`maxAttempts - attempt`). -/
def simpleRetryAux (detail : String) (env : Nat → Outcome) (maxAttempts : Nat) :
    Nat → Nat → RetryResult
  | 0, _ => ⟨none, 0, []⟩
  | fuel + 1, attempt =>
    match env attempt with
    | .ok body => ⟨some (.ok body), 1, []⟩
    | .httpErr code _ =>
      if code < 500 ∨ attempt = maxAttempts - 1 then
        ⟨some (.error ⟨503, detail⟩), 1, []⟩
      else
        let rest := simpleRetryAux detail env maxAttempts fuel (attempt + 1)
        ⟨rest.result, rest.attempts + 1, backoffDelay attempt :: rest.sleeps⟩
    | .reqErr =>
      if attempt = maxAttempts - 1 then
        ⟨some (.error ⟨503, detail⟩), 1, []⟩
      else
        let rest := simpleRetryAux detail env maxAttempts fuel (attempt + 1)
        ⟨rest.result, rest.attempts + 1, backoffDelay attempt :: rest.sleeps⟩

/-- `_retry_request` from `lrsql.py`: every terminal HTTP failure raises
`HTTPException(503, "LRS unavailable")`. -/
def lrsqlRetry (env : Nat → Outcome) (maxAttempts : Nat) : RetryResult :=
  simpleRetryAux "LRS unavailable" env maxAttempts maxAttempts 0

/-- `_retry_request` from `veracity.py`: every terminal HTTP failure
raises `HTTPException(503, "Veracity LRS unavailable")`. -/
def veracityRetry (env : Nat → Outcome) (maxAttempts : Nat) : RetryResult :=
  simpleRetryAux "Veracity LRS unavailable" env maxAttempts maxAttempts 0

/-- The two Ralph authentication methods. -/
inductive AuthMethod where
  | basic : AuthMethod
  | oidc : AuthMethod
  deriving DecidableEq

/-- An `Authorization` header value; the base64 rendering of the basic
credentials is kept symbolic (no verified statement inspects it). -/
inductive Authz where
  | basic (userPass : String) : Authz
  | bearer (token : String) : Authz
  deriving DecidableEq

/-- The Ralph OIDC token cache: `self._token_cache` and
`self._token_expires_at` (instants as integers). -/
structure OidcState where
  tokenCache : Option String
  tokenExpiresAt : Option Int
  deriving DecidableEq

/-- `_get_oidc_token` from `ralph.py`. The token endpoint is modelled by
`supply`, mapping the index of a token request to the returned
`access_token` and optional `expires_in` (the endpoint is assumed to
answer 2xx; no verified statement exercises a token-endpoint failure);
`fetches` counts token-endpoint requests so far. Returns the token, the
new cache state, and the new request count. A cached token is used iff
the cache is truthy (non-empty token, expiry set) and `now` is before the
stored expiry; a fresh token is stored with expiry
`now + expires_in - 30` (`expires_in` defaulting to 3600). -/
def _get_oidc_token (supply : Nat → String × Option Int) (now : Int)
    (st : OidcState) (fetches : Nat) : String × OidcState × Nat :=
  match st.tokenCache, st.tokenExpiresAt with
  | some t, some e =>
    if t ≠ "" ∧ now < e then
      (t, st, fetches)
    else
      fetchNew supply now fetches
  | _, _ => fetchNew supply now fetches
where
  /-- the token-request branch of `_get_oidc_token`. -/
  fetchNew (supply : Nat → String × Option Int) (now : Int) (fetches : Nat) :
      String × OidcState × Nat :=
    let (tok, expiresIn) := supply fetches
    (tok, ⟨some tok, some (now + expiresIn.getD 3600 - 30)⟩, fetches + 1)

/-- `_get_headers` from `ralph.py` for the OIDC method: the Bearer header
of the token returned by `_get_oidc_token`. -/
def ralphGetHeaders (supply : Nat → String × Option Int) (now : Int)
    (st : OidcState) (fetches : Nat) : Authz × OidcState × Nat :=
  let (tok, st', fetches') := _get_oidc_token supply now st fetches
  (.bearer tok, st', fetches')

/-- The `detail` of the `HTTPException` raised by `ralph.py` on a
terminal HTTP status failure: it embeds the upstream status code and
response text. -/
def ralphHttpDetail (code : Nat) (text : String) : String :=
  "Ralph LRS unavailable - HTTP " ++ toString code ++ ": " ++ text

/-- The observable trace of one Ralph `_retry_request` call: final
result, attempts made, sleeps, the `Authorization` header sent on each
attempt, total token-endpoint requests, and the final token-cache
state. -/
structure RalphRun where
  result : Option (Except HErr JVal)
  attempts : Nat
  sleeps : List Rat
  headersUsed : List Authz
  tokenFetches : Nat
  finalState : OidcState

/-- One loop of `_retry_request` from `ralph.py`. `kwargsHeaders` models
the `kwargs['headers']` entry: it is set on the first iteration and —
because `kwargs` persists across loop iterations — never recomputed on
retries. A 401 under OIDC clears the token cache and, while attempts
remain, sleeps 0.5 s and retries within the same attempt budget;
otherwise control falls through to the generic policy (any 4xx, or the
last attempt, raises a 503 whose detail embeds the upstream status and
text). -/
def ralphRetryAux (method : AuthMethod) (basicAuthz : Authz)
    (supply : Nat → String × Option Int) (now : Int)
    (env : Nat → Outcome) (maxAttempts : Nat) :
    Nat → Nat → Option Authz → OidcState → Nat → RalphRun
  | 0, _, _, st, fetches => ⟨none, 0, [], [], fetches, st⟩
  | fuel + 1, attempt, kwargsHeaders, st, fetches =>
    let (hdr, kw, st1, f1) :=
      match kwargsHeaders with
      | some h => (h, some h, st, fetches)
      | none =>
        match method with
        | .oidc =>
          let (tok, st', fetches') := _get_oidc_token supply now st fetches
          (Authz.bearer tok, some (Authz.bearer tok), st', fetches')
        | .basic => (basicAuthz, some basicAuthz, st, fetches)
    match env attempt with
    | .ok body => ⟨some (.ok body), 1, [], [hdr], f1, st1⟩
    | .httpErr code text =>
      if code = 401 ∧ method = .oidc then
        -- clear the token cache; retry while attempts remain
        if attempt < maxAttempts - 1 then
          let rest := ralphRetryAux method basicAuthz supply now env maxAttempts
            fuel (attempt + 1) kw ⟨none, none⟩ f1
          ⟨rest.result, rest.attempts + 1, (0.5 : Rat) :: rest.sleeps,
            hdr :: rest.headersUsed, rest.tokenFetches, rest.finalState⟩
        else
          -- fall through to the generic policy with the cache cleared
          ⟨some (.error ⟨503, ralphHttpDetail code text⟩), 1, [], [hdr], f1, ⟨none, none⟩⟩
      else if code < 500 ∨ attempt = maxAttempts - 1 then
        ⟨some (.error ⟨503, ralphHttpDetail code text⟩), 1, [], [hdr], f1, st1⟩
      else
        let rest := ralphRetryAux method basicAuthz supply now env maxAttempts
          fuel (attempt + 1) kw st1 f1
        ⟨rest.result, rest.attempts + 1, backoffDelay attempt :: rest.sleeps,
          hdr :: rest.headersUsed, rest.tokenFetches, rest.finalState⟩
    | .reqErr =>
      if attempt = maxAttempts - 1 then
        ⟨some (.error ⟨503, "Ralph LRS unavailable"⟩), 1, [], [hdr], f1, st1⟩
      else
        let rest := ralphRetryAux method basicAuthz supply now env maxAttempts
          fuel (attempt + 1) kw st1 f1
        ⟨rest.result, rest.attempts + 1, backoffDelay attempt :: rest.sleeps,
          hdr :: rest.headersUsed, rest.tokenFetches, rest.finalState⟩

/-- `_retry_request` from `ralph.py`, started as `post_statement` and
`get_statements` start it: no `headers` entry in `kwargs` yet. -/
def ralphRetry (method : AuthMethod) (basicAuthz : Authz)
    (supply : Nat → String × Option Int) (now : Int)
    (env : Nat → Outcome) (maxAttempts : Nat)
    (st : OidcState) (fetches : Nat) : RalphRun :=
  ralphRetryAux method basicAuthz supply now env maxAttempts maxAttempts 0 none st fetches

/-- `validate_and_clean_endpoint` from `veracity.py`: require an
`http://` or `https://` scheme, strip all trailing slashes, then strip a
trailing `/xapi` suffix if present. -/
def validate_and_clean_endpoint (v : String) : Except String String :=
  if "http://".data.isPrefixOf v.data || "https://".data.isPrefixOf v.data then
    let cs := (v.data.reverse.dropWhile (fun c => c = '/')).reverse
    if "/xapi".data.isSuffixOf cs then
      .ok (String.mk (cs.take (cs.length - 5)))
    else
      .ok (String.mk cs)
  else
    .error "Endpoint must start with http:// or https://"

/-! ## Theorems -/

/-- C9: for every requested limit `L`, the `limit` parameter sent to the
remote store — the core clamp followed by the plugin-side `min(limit, 50)`
— equals `min(L, 50)` in every backend variant; in particular `L = 100`
is issued with effective limit 50. -/
theorem c9_limit_clamp (L : Int) :
    lrsqlParamsLimit (coreEnforceLimit L) = min L 50 ∧
    ralphParamsLimit (coreEnforceLimit L) = min L 50 ∧
    veracityParamsLimit (coreEnforceLimit L) = min L 50 ∧
    lrsqlParamsLimit (coreEnforceLimit 100) = 50 ∧
    ralphParamsLimit (coreEnforceLimit 100) = 50 ∧
    veracityParamsLimit (coreEnforceLimit 100) = 50 := by
  unfold lrsqlParamsLimit ralphParamsLimit veracityParamsLimit coreEnforceLimit
  refine ⟨?_, ?_, ?_, by norm_num, by norm_num, by norm_num⟩ <;> split <;> omega

/-- The response normalization of §4.5 of the spec, stated from its words:
an array's first element becomes the id (`"unknown"` for an empty array);
an object is returned as-is; any other scalar is coerced to string and
wrapped as `{id, stored: true}`. Used to compare each backend's
`post_statement` against the spec's uniform rule. -/
def specPostNormalize (body : JVal) : JVal :=
  match body with
  | .jarr xs => .jobj [("id", xs.headD (.jstr "unknown")), ("stored", .jbool true)]
  | .jobj kvs => .jobj kvs
  | v => .jobj [("id", .jstr (pyStr v)), ("stored", .jbool true)]

/-- C3 counterexample: the Ralph backend does not return an id-bearing
object response as-is — its `post_statement` has no dict branch, so an
object response falls into the fallback and is coerced to its Python
string form and wrapped, unlike the LRS SQL and Veracity backends on the
same body. -/
theorem c3_counterexample :
    ralphPostNormalize (.jobj [("id", .jstr "abc")]) ≠ .jobj [("id", .jstr "abc")] ∧
    ralphPostNormalize (.jobj [("id", .jstr "abc")]) =
      .jobj [("id", .jstr "\x7b\x27id\x27: \x27abc\x27\x7d"), ("stored", .jbool true)] ∧
    lrsqlPostNormalize (.jobj [("id", .jstr "abc")]) = .jobj [("id", .jstr "abc")] ∧
    veracityPostNormalize (.jobj [("id", .jstr "abc")]) = .jobj [("id", .jstr "abc")] := by
  refine ⟨?_, rfl, rfl, rfl⟩
  simp [ralphPostNormalize]

/-- C3 (amended): the LRS SQL and Veracity backends normalize `postEvent`
responses exactly as §4.5 describes; the Ralph backend agrees on array
responses and on scalar responses, but coerces an object response to its
string form and wraps it as `{id, stored: true}` instead of returning the
object as-is. -/
theorem c3_normalization (body : JVal) :
    lrsqlPostNormalize body = specPostNormalize body ∧
    veracityPostNormalize body = specPostNormalize body ∧
    (∀ xs, body = .jarr xs → ralphPostNormalize body = specPostNormalize body) ∧
    (∀ kvs, body = .jobj kvs →
      ralphPostNormalize body = .jobj [("id", .jstr (pyStr body)), ("stored", .jbool true)]) ∧
    ((∀ xs, body ≠ .jarr xs) → (∀ kvs, body ≠ .jobj kvs) →
      ralphPostNormalize body = specPostNormalize body) := by
  refine ⟨rfl, rfl, ?_, ?_, ?_⟩
  · rintro xs rfl; rfl
  · rintro kvs rfl; rfl
  · intro ha hb
    cases body with
    | jarr xs => exact absurd rfl (ha xs)
    | jobj kvs => exact absurd rfl (hb kvs)
    | jnull => rfl
    | jbool b => rfl
    | jnum q => rfl
    | jstr s => rfl

/-- C3 witness: the amended theorem applied to a concrete object body. -/
theorem c3_normalization_witness :
    ralphPostNormalize (.jobj [("id", .jstr "xyz")]) =
      .jobj [("id", .jstr (pyStr (.jobj [("id", .jstr "xyz")]))), ("stored", .jbool true)] :=
  (c3_normalization (.jobj [("id", .jstr "xyz")])).2.2.2.1 [("id", .jstr "xyz")] rfl

/-- C2 counterexample: for `level = 1.9` with `extras = {score_max: 3}`,
the built score is `{raw: 1.9, min: 0, max: 3}` and — because
`_calculate_success` branches on `max == 3`, not on how the score was
built — success is `false`, although the claim's continuous formula
`raw >= 0.6 * max` holds (`1.9 >= 1.8`). -/
theorem c2_counterexample :
    _build_score (.float 1.9) [("score_max", .jnum 3)] = .ok ⟨1.9, 0, 3⟩ ∧
    _calculate_success ⟨1.9, 0, 3⟩ = false ∧
    (0.6 : Rat) * 3 ≤ 1.9 := by
  refine ⟨rfl, ?_, by norm_num⟩
  simp only [_calculate_success, if_pos rfl, decide_eq_false_iff_not]
  norm_num

/-- C2 (amended): an integer level in `[0, 3]` yields the discrete score
`{raw: level, min: 0, max: 3}` with success iff `raw >= 2`; any other
numeric level yields `{raw: float(level), min: 0, max: float(score_max or
100)}`, with success decided by `raw >= 2` whenever the resulting `max`
equals 3 (including a continuous score with `score_max = 3`) and by
`raw >= 0.6 * max` otherwise. -/
theorem c2_score_success :
    (∀ (n : Int) (extras : List (String × JVal)), 0 ≤ n → n ≤ 3 →
      _build_score (.int n) extras = .ok ⟨(n : Rat), 0, 3⟩ ∧
      (_calculate_success ⟨(n : Rat), 0, 3⟩ = true ↔ 2 ≤ (n : Rat))) ∧
    (∀ (q : Rat) (extras : List (String × JVal)) (m : Rat),
      dictGet extras "score_max" (.jnum 100) = .jnum m →
      _build_score (.float q) extras = .ok ⟨q, 0, m⟩ ∧
      (m = 3 → (_calculate_success ⟨q, 0, m⟩ = true ↔ 2 ≤ q)) ∧
      (m ≠ 3 → (_calculate_success ⟨q, 0, m⟩ = true ↔ (0.6 : Rat) * m ≤ q))) ∧
    (∀ (n : Int) (extras : List (String × JVal)) (m : Rat), (n < 0 ∨ 3 < n) →
      dictGet extras "score_max" (.jnum 100) = .jnum m →
      _build_score (.int n) extras = .ok ⟨(n : Rat), 0, m⟩) := by
  refine ⟨?_, ?_, ?_⟩
  · intro n extras h0 h3
    constructor
    · simp only [_build_score]
      rw [if_pos ⟨h0, h3⟩]
    · simp [_calculate_success]
  · intro q extras m hm
    refine ⟨?_, ?_, ?_⟩
    · simp only [_build_score, _build_score.buildDecimal]
      rw [hm]
      rfl
    · rintro rfl; simp [_calculate_success]
    · intro hne; simp [_calculate_success, hne]
  · intro n extras m hrange hm
    simp only [_build_score, _build_score.buildDecimal]
    rw [if_neg (show ¬(0 ≤ n ∧ n ≤ 3) by omega), hm]
    rfl

/-- C2 witness: the amended theorem applied at `level = 2` (discrete),
`level = 85.0` with default `score_max` (continuous, max 100), and
`level = 1.9` with `score_max = 3` (continuous, max 3 → discrete rule). -/
theorem c2_score_success_witness :
    (_build_score (.int 2) [] = .ok ⟨(2 : Rat), 0, 3⟩ ∧
      (_calculate_success ⟨(2 : Rat), 0, 3⟩ = true ↔ 2 ≤ ((2 : Int) : Rat))) ∧
    (_build_score (.float 85) [] = .ok ⟨85, 0, 100⟩ ∧
      ((100 : Rat) ≠ 3 →
        (_calculate_success ⟨85, 0, 100⟩ = true ↔ (0.6 : Rat) * 100 ≤ 85))) ∧
    (_build_score (.float 1.9) [("score_max", .jnum 3)] = .ok ⟨1.9, 0, 3⟩ ∧
      ((3 : Rat) = 3 → (_calculate_success ⟨1.9, 0, 3⟩ = true ↔ 2 ≤ (1.9 : Rat)))) := by
  refine ⟨c2_score_success.1 2 [] (by norm_num) (by norm_num), ?_, ?_⟩
  · have h := c2_score_success.2.1 85 [] 100 rfl
    exact ⟨h.1, h.2.2⟩
  · have h := c2_score_success.2.1 1.9 [("score_max", .jnum 3)] 3 rfl
    exact ⟨h.1, h.2.1⟩

/-- Rebuilding a string from its character list is the identity. -/
theorem string_mk_data (s : String) : String.mk s.data = s := by
  cases s; rfl

/-- A scheme prefix of `e` is a scheme prefix of `e` extended by any
suffix. -/
theorem scheme_extends (e : String) (l : List Char)
    (h : ("http://".data.isPrefixOf e.data || "https://".data.isPrefixOf e.data) = true) :
    ("http://".data.isPrefixOf (e.data ++ l) ||
      "https://".data.isPrefixOf (e.data ++ l)) = true := by
  rw [Bool.or_eq_true] at h ⊢
  rcases h with h' | h'
  · left
    rw [List.isPrefixOf_iff_prefix] at h' ⊢
    exact h'.trans (List.prefix_append _ _)
  · right
    rw [List.isPrefixOf_iff_prefix] at h' ⊢
    exact h'.trans (List.prefix_append _ _)

/-- Stripping trailing slashes leaves a list ending in `/xapi` alone. -/
theorem rstrip_append_xapi (xs : List Char) :
    ((xs ++ ['/', 'x', 'a', 'p', 'i']).reverse.dropWhile (fun c => c = '/')).reverse
      = xs ++ ['/', 'x', 'a', 'p', 'i'] := by
  simp [List.reverse_append, List.dropWhile_cons]

/-- Stripping trailing slashes from a list ending in `/xapi/` removes
exactly the final slash. -/
theorem rstrip_append_xapi_slash (xs : List Char) :
    ((xs ++ ['/', 'x', 'a', 'p', 'i', '/']).reverse.dropWhile (fun c => c = '/')).reverse
      = xs ++ ['/', 'x', 'a', 'p', 'i'] := by
  simp [List.reverse_append, List.dropWhile_cons]

/-- Stripping trailing slashes leaves a list ending in `/custom` alone. -/
theorem rstrip_append_custom (xs : List Char) :
    ((xs ++ ['/', 'c', 'u', 's', 't', 'o', 'm']).reverse.dropWhile (fun c => c = '/')).reverse
      = xs ++ ['/', 'c', 'u', 's', 't', 'o', 'm'] := by
  simp [List.reverse_append, List.dropWhile_cons]

/-- Dropping the final 5 characters of a list extended by a 5-character
suffix recovers the original list. -/
theorem take_drop_suffix5 (xs : List Char) (l : List Char) (hl : l.length = 5) :
    (xs ++ l).take ((xs ++ l).length - 5) = xs := by
  have hlen : (xs ++ l).length - 5 = xs.length := by
    simp [List.length_append, hl]
  rw [hlen, List.take_left]

/-- A list ending in `/custom` does not end in `/xapi`. -/
theorem custom_not_xapi_suffix (xs : List Char) :
    (['/', 'x', 'a', 'p', 'i'].isSuffixOf (xs ++ ['/', 'c', 'u', 's', 't', 'o', 'm'])) = false := by
  rw [Bool.eq_false_iff]
  intro h
  rw [List.isSuffixOf_iff_suffix] at h
  obtain ⟨t, ht⟩ := h
  have := congrArg List.reverse ht
  simp [List.reverse_append] at this

/-- C7: for every base URL `e` with an `http://` or `https://` scheme
that does not itself end in `/xapi`, the Veracity endpoint normalizer
maps both `e ++ "/xapi"` and `e ++ "/xapi/"` to `e`, while the unrelated
suffix `e ++ "/custom"` is left untouched (it has no trailing slash to
remove). -/
theorem c7_endpoint_normalization (e : String)
    (hscheme : ("http://".data.isPrefixOf e.data || "https://".data.isPrefixOf e.data) = true)
    (_hnx : ("/xapi".data.isSuffixOf e.data) = false) :
    validate_and_clean_endpoint (e ++ "/xapi") = .ok e ∧
    validate_and_clean_endpoint (e ++ "/xapi/") = .ok e ∧
    validate_and_clean_endpoint (e ++ "/custom") = .ok (e ++ "/custom") := by
  have hx : ("/xapi" : String).data = ['/', 'x', 'a', 'p', 'i'] := rfl
  have hxs : ("/xapi/" : String).data = ['/', 'x', 'a', 'p', 'i', '/'] := rfl
  have hc : ("/custom" : String).data = ['/', 'c', 'u', 's', 't', 'o', 'm'] := rfl
  have hsuf : ∀ xs : List Char,
      ("/xapi".data.isSuffixOf (xs ++ ['/', 'x', 'a', 'p', 'i'])) = true := by
    intro xs
    rw [List.isSuffixOf_iff_suffix, hx]
    exact List.suffix_append _ _
  refine ⟨?_, ?_, ?_⟩
  · simp only [validate_and_clean_endpoint, String.data_append, hx,
      scheme_extends e _ hscheme, rstrip_append_xapi, hsuf, if_true,
      take_drop_suffix5 e.data ['/', 'x', 'a', 'p', 'i'] rfl, string_mk_data]
  · simp only [validate_and_clean_endpoint, String.data_append, hxs,
      scheme_extends e _ hscheme, rstrip_append_xapi_slash, hsuf, if_true,
      take_drop_suffix5 e.data ['/', 'x', 'a', 'p', 'i'] rfl, string_mk_data]
  · simp only [validate_and_clean_endpoint, String.data_append, hc,
      scheme_extends e _ hscheme, rstrip_append_custom, custom_not_xapi_suffix,
      if_true, Bool.false_eq_true, if_false]
    rw [show (e ++ "/custom") = String.mk (e.data ++ ['/', 'c', 'u', 's', 't', 'o', 'm']) by
      rw [← hc, ← String.data_append, string_mk_data]]

/-- C7 witness: the normalization theorem applied to a concrete base
URL. -/
theorem c7_endpoint_normalization_witness :
    validate_and_clean_endpoint ("https://lrs.example.com" ++ "/xapi") = .ok "https://lrs.example.com" ∧
    validate_and_clean_endpoint ("https://lrs.example.com" ++ "/xapi/") = .ok "https://lrs.example.com" ∧
    validate_and_clean_endpoint ("https://lrs.example.com" ++ "/custom") =
      .ok ("https://lrs.example.com" ++ "/custom") :=
  c7_endpoint_normalization "https://lrs.example.com" (by decide) (by decide)

/-- A retryable attempt failure under the generic policy: a transport
error or an HTTP 5xx response. -/
def retryableFail : Outcome → Prop
  | .ok _ => False
  | .httpErr code _ => 500 ≤ code
  | .reqErr => True

/-- A 2xx attempt returns immediately. -/
theorem simpleRetryAux_ok (d : String) (env : Nat → Outcome) (m fuel attempt : Nat)
    (body : JVal) (h : env attempt = .ok body) :
    simpleRetryAux d env m (fuel + 1) attempt = ⟨some (.ok body), 1, []⟩ := by
  simp only [simpleRetryAux, h]

/-- A retryable failure before the last attempt sleeps and retries. -/
theorem simpleRetryAux_retry (d : String) (env : Nat → Outcome) (m fuel attempt : Nat)
    (h : retryableFail (env attempt)) (ha : attempt ≠ m - 1) :
    simpleRetryAux d env m (fuel + 1) attempt =
      ⟨(simpleRetryAux d env m fuel (attempt + 1)).result,
        (simpleRetryAux d env m fuel (attempt + 1)).attempts + 1,
        backoffDelay attempt :: (simpleRetryAux d env m fuel (attempt + 1)).sleeps⟩ := by
  cases henv : env attempt with
  | ok body =>
    rw [henv] at h
    exact h.elim
  | httpErr code text =>
    rw [henv] at h
    have h5 : 500 ≤ code := h
    simp only [simpleRetryAux, henv]
    rw [if_neg (by omega)]
  | reqErr =>
    simp only [simpleRetryAux, henv]
    rw [if_neg ha]

/-- A retryable failure on the last attempt raises the uniform 503. -/
theorem simpleRetryAux_last (d : String) (env : Nat → Outcome) (m fuel attempt : Nat)
    (h : retryableFail (env attempt)) (ha : attempt = m - 1) :
    simpleRetryAux d env m (fuel + 1) attempt = ⟨some (.error ⟨503, d⟩), 1, []⟩ := by
  cases henv : env attempt with
  | ok body =>
    rw [henv] at h
    exact h.elim
  | httpErr code text =>
    simp only [simpleRetryAux, henv]
    rw [if_pos (Or.inr ha)]
  | reqErr =>
    simp only [simpleRetryAux, henv]
    rw [if_pos ha]

/-- An HTTP 4xx raises the uniform 503 immediately, on any attempt. -/
theorem simpleRetryAux_client_error (d : String) (env : Nat → Outcome)
    (m fuel attempt code : Nat) (text : String)
    (h : env attempt = .httpErr code text) (hc : code < 500) :
    simpleRetryAux d env m (fuel + 1) attempt = ⟨some (.error ⟨503, d⟩), 1, []⟩ := by
  simp only [simpleRetryAux, h]
  rw [if_pos (Or.inl hc)]

/-- C4: with `maxAttempts = 3`, the first 2xx returns immediately; two
5xx responses followed by a success yield the success after exactly 3
attempts, sleeping the backoff schedule `[0.5, 1.0]` between attempts;
and when every attempt fails with a transport error or HTTP 5xx, the call
fails with the uniform 503 `"LRS unavailable"` after exactly 3 attempts
(no 4th), with the same sleeps. -/
theorem c4_retry_executor :
    (∀ (env : Nat → Outcome) (body : JVal), env 0 = .ok body →
      lrsqlRetry env 3 = ⟨some (.ok body), 1, []⟩) ∧
    (∀ (env : Nat → Outcome) (body : JVal) (c0 c1 : Nat) (t0 t1 : String),
      env 0 = .httpErr c0 t0 → env 1 = .httpErr c1 t1 → 500 ≤ c0 → 500 ≤ c1 →
      env 2 = .ok body →
      lrsqlRetry env 3 = ⟨some (.ok body), 3, [0.5, 1.0]⟩) ∧
    (∀ env : Nat → Outcome, (∀ i, i < 3 → retryableFail (env i)) →
      lrsqlRetry env 3 = ⟨some (.error ⟨503, "LRS unavailable"⟩), 3, [0.5, 1.0]⟩) := by
  refine ⟨?_, ?_, ?_⟩
  · intro env body h0
    exact simpleRetryAux_ok _ env 3 2 0 body h0
  · intro env body c0 c1 t0 t1 h0 h1 hc0 hc1 h2
    have e0 := simpleRetryAux_retry "LRS unavailable" env 3 2 0
      (by rw [h0]; exact hc0) (by omega)
    have e1 := simpleRetryAux_retry "LRS unavailable" env 3 1 1
      (by rw [h1]; exact hc1) (by omega)
    have e2 := simpleRetryAux_ok "LRS unavailable" env 3 0 2 body h2
    norm_num at e0 e1 e2
    rw [lrsqlRetry, e0, e1, e2]
    rfl
  · intro env hfail
    have e0 := simpleRetryAux_retry "LRS unavailable" env 3 2 0
      (hfail 0 (by omega)) (by omega)
    have e1 := simpleRetryAux_retry "LRS unavailable" env 3 1 1
      (hfail 1 (by omega)) (by omega)
    have e2 := simpleRetryAux_last "LRS unavailable" env 3 0 2
      (hfail 2 (by omega)) (by omega)
    norm_num at e0 e1 e2
    rw [lrsqlRetry, e0, e1, e2]
    rfl

/-- C4 witness: the retry theorem applied to a concrete environment of
two 500 responses followed by a success, and to a concrete environment
of three transport errors. -/
theorem c4_retry_executor_witness :
    lrsqlRetry (fun i => if i < 2 then .httpErr 500 "err" else .ok (.jstr "id")) 3 =
      ⟨some (.ok (.jstr "id")), 3, [0.5, 1.0]⟩ ∧
    lrsqlRetry (fun _ => .reqErr) 3 =
      ⟨some (.error ⟨503, "LRS unavailable"⟩), 3, [0.5, 1.0]⟩ := by
  constructor
  · exact c4_retry_executor.2.1 _ (.jstr "id") 500 500 "err" "err" rfl rfl
      (by norm_num) (by norm_num) rfl
  · exact c4_retry_executor.2.2 _ (fun i _ => by simp [retryableFail])

/-- C5 counterexample: on a single 4xx response the Ralph backend fails
after exactly 1 attempt, but the raised error is not the single uniform
error with the upstream detail hidden — its `detail` embeds the upstream
status code and response text, so two different 4xx responses produce two
different caller-facing errors. -/
theorem c5_counterexample :
    (ralphRetry .basic (.basic "user:pass") (fun _ => ("", none)) 0
        (fun _ => .httpErr 403 "Forbidden") 3 ⟨none, none⟩ 0).result =
      some (.error ⟨503, "Ralph LRS unavailable - HTTP 403: Forbidden"⟩) ∧
    (ralphRetry .basic (.basic "user:pass") (fun _ => ("", none)) 0
        (fun _ => .httpErr 403 "Forbidden") 3 ⟨none, none⟩ 0).attempts = 1 ∧
    (ralphRetry .basic (.basic "user:pass") (fun _ => ("", none)) 0
        (fun _ => .httpErr 404 "Not Found") 3 ⟨none, none⟩ 0).result ≠
      (ralphRetry .basic (.basic "user:pass") (fun _ => ("", none)) 0
        (fun _ => .httpErr 403 "Forbidden") 3 ⟨none, none⟩ 0).result := by
  refine ⟨rfl, rfl, ?_⟩
  show some (Except.error (⟨503, "Ralph LRS unavailable - HTTP 404: Not Found"⟩ : HErr)) ≠
    some (Except.error (⟨503, "Ralph LRS unavailable - HTTP 403: Forbidden"⟩ : HErr))
  simp

/-- C5 (amended): a 4xx response under the generic retry policy (any 4xx
for the basic-auth paths; any non-401 4xx for Ralph-OIDC) is never
retried — the call fails after exactly 1 attempt with a 503.  For the LRS
SQL and Veracity backends the error detail is a fixed backend-independent
string; for Ralph the detail embeds the upstream status code and response
text. -/
theorem c5_client_errors (code : Nat) (text : String) (env : Nat → Outcome)
    (maxAttempts : Nat) (_hc4 : 400 ≤ code) (hc5 : code < 500)
    (hm : 1 ≤ maxAttempts) (h0 : env 0 = .httpErr code text) :
    lrsqlRetry env maxAttempts = ⟨some (.error ⟨503, "LRS unavailable"⟩), 1, []⟩ ∧
    veracityRetry env maxAttempts = ⟨some (.error ⟨503, "Veracity LRS unavailable"⟩), 1, []⟩ ∧
    (∀ (ba : Authz) (supply : Nat → String × Option Int) (now : Int)
      (st : OidcState) (fetches : Nat),
      ralphRetry .basic ba supply now env maxAttempts st fetches =
        ⟨some (.error ⟨503, ralphHttpDetail code text⟩), 1, [], [ba], fetches, st⟩) ∧
    (code ≠ 401 →
      ∀ (ba : Authz) (supply : Nat → String × Option Int) (now : Int)
        (tok : String) (ein : Option Int), supply 0 = (tok, ein) →
        ralphRetry .oidc ba supply now env maxAttempts ⟨none, none⟩ 0 =
          ⟨some (.error ⟨503, ralphHttpDetail code text⟩), 1, [], [.bearer tok], 1,
            ⟨some tok, some (now + ein.getD 3600 - 30)⟩⟩) := by
  obtain ⟨m, rfl⟩ : ∃ m, maxAttempts = m + 1 := ⟨maxAttempts - 1, by omega⟩
  refine ⟨?_, ?_, ?_, ?_⟩
  · rw [lrsqlRetry]
    exact simpleRetryAux_client_error _ env (m + 1) m 0 code text h0 hc5
  · rw [veracityRetry]
    exact simpleRetryAux_client_error _ env (m + 1) m 0 code text h0 hc5
  · intro ba supply now st fetches
    simp only [ralphRetry, ralphRetryAux, h0]
    rw [if_neg (fun hand => AuthMethod.noConfusion hand.2),
      if_pos (Or.inl hc5)]
  · intro hne ba supply now tok ein hsup
    simp only [ralphRetry, ralphRetryAux, h0, _get_oidc_token,
      _get_oidc_token.fetchNew, hsup]
    rw [if_neg (fun hand => hne hand.1), if_pos (Or.inl hc5)]

/-- C5 witness: the amended theorem applied to a single concrete 404
response with `maxAttempts = 3`. -/
theorem c5_client_errors_witness :
    lrsqlRetry (fun _ => .httpErr 404 "nf") 3 =
      ⟨some (.error ⟨503, "LRS unavailable"⟩), 1, []⟩ ∧
    ralphRetry .oidc (.basic "u") (fun _ => ("tokA", some 60)) 100
        (fun _ => .httpErr 404 "nf") 3 ⟨none, none⟩ 0 =
      ⟨some (.error ⟨503, ralphHttpDetail 404 "nf"⟩), 1, [], [.bearer "tokA"], 1,
        ⟨some "tokA", some (100 + 60 - 30)⟩⟩ := by
  have h := c5_client_errors 404 "nf" (fun _ => .httpErr 404 "nf") 3
    (by norm_num) (by norm_num) (by norm_num) rfl
  exact ⟨h.1, h.2.2.2 (by norm_num) (.basic "u") (fun _ => ("tokA", some 60)) 100
    "tokA" (some 60) rfl⟩

/-- C6: a first call on a cold cache fetches a token and caches it with
expiry `now + expires_in - 30`; every call while `now` is before the
cached expiry returns the cached token's Bearer header with no
token-endpoint request (the request count stays at 1 across the first
two calls); a call at or after the cached expiry triggers exactly one
more fetch. -/
theorem c6_token_cache (supply : Nat → String × Option Int) (t0 t1 t2 ein : Int)
    (tokA : String) (hsup : supply 0 = (tokA, some ein)) (htok : tokA ≠ "")
    (ht1 : t1 < t0 + ein - 30) (ht2 : t0 + ein - 30 ≤ t2) :
    _get_oidc_token supply t0 ⟨none, none⟩ 0 =
      (tokA, ⟨some tokA, some (t0 + ein - 30)⟩, 1) ∧
    _get_oidc_token supply t1 ⟨some tokA, some (t0 + ein - 30)⟩ 1 =
      (tokA, ⟨some tokA, some (t0 + ein - 30)⟩, 1) ∧
    ralphGetHeaders supply t1 ⟨some tokA, some (t0 + ein - 30)⟩ 1 =
      (.bearer tokA, ⟨some tokA, some (t0 + ein - 30)⟩, 1) ∧
    _get_oidc_token supply t2 ⟨some tokA, some (t0 + ein - 30)⟩ 1 =
      ((supply 1).1, ⟨some (supply 1).1, some (t2 + (supply 1).2.getD 3600 - 30)⟩, 2) := by
  have hcached : _get_oidc_token supply t1 ⟨some tokA, some (t0 + ein - 30)⟩ 1 =
      (tokA, ⟨some tokA, some (t0 + ein - 30)⟩, 1) := by
    simp only [_get_oidc_token]
    rw [if_pos ⟨htok, ht1⟩]
  refine ⟨?_, hcached, ?_, ?_⟩
  · simp only [_get_oidc_token, _get_oidc_token.fetchNew, hsup, Option.getD_some]
  · simp only [ralphGetHeaders, hcached]
  · rcases hs1 : supply 1 with ⟨tokB, einB⟩
    simp only [_get_oidc_token, _get_oidc_token.fetchNew, hs1]
    rw [if_neg (fun hand => by omega)]

/-- C6 witness: the token-cache theorem applied at concrete instants
(first call at 0, reuse at 100, refetch at 3570, `expires_in` 3600). -/
theorem c6_token_cache_witness :
    _get_oidc_token (fun _ => ("tokA", some 3600)) 0 ⟨none, none⟩ 0 =
      ("tokA", ⟨some "tokA", some (0 + 3600 - 30)⟩, 1) ∧
    _get_oidc_token (fun _ => ("tokA", some 3600)) 100 ⟨some "tokA", some (0 + 3600 - 30)⟩ 1 =
      ("tokA", ⟨some "tokA", some (0 + 3600 - 30)⟩, 1) ∧
    ralphGetHeaders (fun _ => ("tokA", some 3600)) 100 ⟨some "tokA", some (0 + 3600 - 30)⟩ 1 =
      (.bearer "tokA", ⟨some "tokA", some (0 + 3600 - 30)⟩, 1) ∧
    _get_oidc_token (fun _ => ("tokA", some 3600)) 3570 ⟨some "tokA", some (0 + 3600 - 30)⟩ 1 =
      ("tokA", ⟨some "tokA", some (3570 + 3600 - 30)⟩, 2) :=
  c6_token_cache (fun _ => ("tokA", some 3600)) 0 100 3570 3600 "tokA" rfl
    (by simp) (by norm_num) (by norm_num)

/-- C1 counterexample: Ralph-OIDC with `maxAttempts = 3` and every
attempt answered 401.  The claim predicts exactly one extra retry outside
the attempt budget (2 attempts total, then the generic 4xx policy) with a
fresh token fetched for the retry (2 token requests).  The code instead
makes all 3 budget attempts, performs exactly 1 token request, and sends
the same stale Bearer header on every attempt — `kwargs['headers']`
persists across loop iterations, so clearing the cache never causes a
re-fetch within the same request. -/
theorem c1_counterexample :
    ralphRetry .oidc (.basic "unused") (fun k => ("tok" ++ toString k, some 3600)) 1000
        (fun _ => .httpErr 401 "Unauthorized") 3 ⟨none, none⟩ 0 =
      ⟨some (.error ⟨503, "Ralph LRS unavailable - HTTP 401: Unauthorized"⟩), 3,
        [0.5, 0.5], [.bearer "tok0", .bearer "tok0", .bearer "tok0"], 1, ⟨none, none⟩⟩ := by
  rfl

/-- Once `kwargs['headers']` is set, the Ralph retry loop never fetches
another token and sends that same header on every remaining attempt. -/
theorem ralphRetryAux_frozen_headers (method : AuthMethod) (ba : Authz)
    (supply : Nat → String × Option Int) (now : Int) (env : Nat → Outcome)
    (m : Nat) : ∀ (fuel attempt : Nat) (h : Authz) (st : OidcState) (fetches : Nat),
    (ralphRetryAux method ba supply now env m fuel attempt (some h) st fetches).tokenFetches
      = fetches ∧
    ∀ a ∈ (ralphRetryAux method ba supply now env m fuel attempt (some h) st fetches).headersUsed,
      a = h := by
  intro fuel
  induction fuel with
  | zero =>
    intro attempt h st fetches
    simp [ralphRetryAux]
  | succ n ih =>
    intro attempt h st fetches
    cases henv : env attempt with
    | ok body => simp [ralphRetryAux, henv]
    | httpErr code text =>
      simp only [ralphRetryAux, henv]
      by_cases h401 : code = 401 ∧ method = .oidc
      · rw [if_pos h401]
        by_cases hlt : attempt < m - 1
        · rw [if_pos hlt]
          refine ⟨(ih (attempt + 1) h ⟨none, none⟩ fetches).1, ?_⟩
          intro a ha
          rcases List.mem_cons.mp ha with rfl | ha'
          · rfl
          · exact (ih (attempt + 1) h ⟨none, none⟩ fetches).2 a ha'
        · rw [if_neg hlt]
          simp
      · rw [if_neg h401]
        by_cases hterm : code < 500 ∨ attempt = m - 1
        · rw [if_pos hterm]
          simp
        · rw [if_neg hterm]
          refine ⟨(ih (attempt + 1) h st fetches).1, ?_⟩
          intro a ha
          rcases List.mem_cons.mp ha with rfl | ha'
          · rfl
          · exact (ih (attempt + 1) h st fetches).2 a ha'
    | reqErr =>
      simp only [ralphRetryAux, henv]
      by_cases hterm : attempt = m - 1
      · rw [if_pos hterm]
        simp
      · rw [if_neg hterm]
        refine ⟨(ih (attempt + 1) h st fetches).1, ?_⟩
        intro a ha
        rcases List.mem_cons.mp ha with rfl | ha'
        · rfl
        · exact (ih (attempt + 1) h st fetches).2 a ha'

/-- A 401 under OIDC before the last attempt: the cache is cleared and
the request retried within the same attempt budget, after a 0.5 s sleep,
with `kwargs['headers']` still carrying the header computed on the first
attempt. -/
theorem ralphRetryAux_oidc_401_retry (ba : Authz)
    (supply : Nat → String × Option Int) (now : Int) (env : Nat → Outcome)
    (m fuel attempt : Nat) (st : OidcState) (fetches : Nat) (text tok : String)
    (st' : OidcState) (f' : Nat) (h : env attempt = .httpErr 401 text)
    (hlt : attempt < m - 1)
    (htok : _get_oidc_token supply now st fetches = (tok, st', f')) :
    ralphRetryAux .oidc ba supply now env m (fuel + 1) attempt none st fetches =
      ⟨(ralphRetryAux .oidc ba supply now env m fuel (attempt + 1)
          (some (.bearer tok)) ⟨none, none⟩ f').result,
        (ralphRetryAux .oidc ba supply now env m fuel (attempt + 1)
          (some (.bearer tok)) ⟨none, none⟩ f').attempts + 1,
        (0.5 : Rat) :: (ralphRetryAux .oidc ba supply now env m fuel (attempt + 1)
          (some (.bearer tok)) ⟨none, none⟩ f').sleeps,
        Authz.bearer tok :: (ralphRetryAux .oidc ba supply now env m fuel (attempt + 1)
          (some (.bearer tok)) ⟨none, none⟩ f').headersUsed,
        (ralphRetryAux .oidc ba supply now env m fuel (attempt + 1)
          (some (.bearer tok)) ⟨none, none⟩ f').tokenFetches,
        (ralphRetryAux .oidc ba supply now env m fuel (attempt + 1)
          (some (.bearer tok)) ⟨none, none⟩ f').finalState⟩ := by
  simp only [ralphRetryAux, h, htok]
  simp [hlt]

/-- C1 (amended): for Ralph-OIDC, a 401 on the first attempt of a cold
request invalidates the token cache and retries the whole request after a
0.5 s sleep *within* the normal retry-attempt budget (the continuation
runs with one unit of fuel less), and the retry does *not* fetch a fresh
token: `kwargs['headers']` persists, so the run performs exactly the one
initial token request and sends the same Bearer header on every
attempt. -/
theorem c1_oidc_401_refresh (ba : Authz) (supply : Nat → String × Option Int)
    (now : Int) (env : Nat → Outcome) (maxAttempts : Nat) (text tok : String)
    (ein : Option Int) (hmax : 2 ≤ maxAttempts) (h0 : env 0 = .httpErr 401 text)
    (hsup : supply 0 = (tok, ein)) :
    ralphRetry .oidc ba supply now env maxAttempts ⟨none, none⟩ 0 =
      ⟨(ralphRetryAux .oidc ba supply now env maxAttempts (maxAttempts - 1) 1
          (some (.bearer tok)) ⟨none, none⟩ 1).result,
        (ralphRetryAux .oidc ba supply now env maxAttempts (maxAttempts - 1) 1
          (some (.bearer tok)) ⟨none, none⟩ 1).attempts + 1,
        (0.5 : Rat) :: (ralphRetryAux .oidc ba supply now env maxAttempts (maxAttempts - 1) 1
          (some (.bearer tok)) ⟨none, none⟩ 1).sleeps,
        Authz.bearer tok :: (ralphRetryAux .oidc ba supply now env maxAttempts (maxAttempts - 1) 1
          (some (.bearer tok)) ⟨none, none⟩ 1).headersUsed,
        (ralphRetryAux .oidc ba supply now env maxAttempts (maxAttempts - 1) 1
          (some (.bearer tok)) ⟨none, none⟩ 1).tokenFetches,
        (ralphRetryAux .oidc ba supply now env maxAttempts (maxAttempts - 1) 1
          (some (.bearer tok)) ⟨none, none⟩ 1).finalState⟩ ∧
    (ralphRetry .oidc ba supply now env maxAttempts ⟨none, none⟩ 0).tokenFetches = 1 ∧
    (∀ a ∈ (ralphRetry .oidc ba supply now env maxAttempts ⟨none, none⟩ 0).headersUsed,
      a = .bearer tok) := by
  have hcold : _get_oidc_token supply now ⟨none, none⟩ 0 =
      (tok, ⟨some tok, some (now + ein.getD 3600 - 30)⟩, 1) := by
    simp only [_get_oidc_token, _get_oidc_token.fetchNew, hsup]
  obtain ⟨m, rfl⟩ : ∃ m, maxAttempts = m + 2 := ⟨maxAttempts - 2, by omega⟩
  have hm1 : m + 2 - 1 = m + 1 := by omega
  have hrun : ralphRetry .oidc ba supply now env (m + 2) ⟨none, none⟩ 0 =
      ⟨(ralphRetryAux .oidc ba supply now env (m + 2) (m + 1) 1
          (some (.bearer tok)) ⟨none, none⟩ 1).result,
        (ralphRetryAux .oidc ba supply now env (m + 2) (m + 1) 1
          (some (.bearer tok)) ⟨none, none⟩ 1).attempts + 1,
        (0.5 : Rat) :: (ralphRetryAux .oidc ba supply now env (m + 2) (m + 1) 1
          (some (.bearer tok)) ⟨none, none⟩ 1).sleeps,
        Authz.bearer tok :: (ralphRetryAux .oidc ba supply now env (m + 2) (m + 1) 1
          (some (.bearer tok)) ⟨none, none⟩ 1).headersUsed,
        (ralphRetryAux .oidc ba supply now env (m + 2) (m + 1) 1
          (some (.bearer tok)) ⟨none, none⟩ 1).tokenFetches,
        (ralphRetryAux .oidc ba supply now env (m + 2) (m + 1) 1
          (some (.bearer tok)) ⟨none, none⟩ 1).finalState⟩ := by
    rw [ralphRetry]
    exact ralphRetryAux_oidc_401_retry ba supply now env (m + 2) (m + 1) 0
      ⟨none, none⟩ 0 text tok ⟨some tok, some (now + ein.getD 3600 - 30)⟩ 1
      h0 (by omega) hcold
  rw [hm1]
  refine ⟨hrun, ?_, ?_⟩
  · rw [hrun]
    exact (ralphRetryAux_frozen_headers .oidc ba supply now env (m + 2)
      (m + 1) 1 (.bearer tok) ⟨none, none⟩ 1).1
  · intro a ha
    rw [hrun] at ha
    rcases List.mem_cons.mp ha with rfl | ha'
    · rfl
    · exact (ralphRetryAux_frozen_headers .oidc ba supply now env (m + 2)
        (m + 1) 1 (.bearer tok) ⟨none, none⟩ 1).2 a ha'

/-- C1 witness: the amended theorem applied to a concrete run (401 on the
first attempt, success on the second, `maxAttempts = 3`). -/
theorem c1_oidc_401_refresh_witness :
    (ralphRetry .oidc (.basic "unused") (fun _ => ("tokA", some 3600)) 0
      (fun i => if i = 0 then .httpErr 401 "x" else .ok .jnull) 3 ⟨none, none⟩ 0).tokenFetches
      = 1 ∧
    ∀ a ∈ (ralphRetry .oidc (.basic "unused") (fun _ => ("tokA", some 3600)) 0
      (fun i => if i = 0 then .httpErr 401 "x" else .ok .jnull) 3 ⟨none, none⟩ 0).headersUsed,
      a = .bearer "tokA" :=
  (c1_oidc_401_refresh (.basic "unused") (fun _ => ("tokA", some 3600)) 0
    (fun i => if i = 0 then .httpErr 401 "x" else .ok .jnull) 3 "x" "tokA" (some 3600)
    (by norm_num) rfl rfl).2

/-- The extras-parsing step can only fail with the 400
`"extras must be valid JSON"` error. -/
theorem parseExtrasArg_error (parseJson : String → Option JVal) (extras : ExtrasArg)
    (e : RsError) (h : parseExtrasArg parseJson extras = .error e) :
    e = .http ⟨400, "extras must be valid JSON"⟩ := by
  cases extras with
  | none => simp [parseExtrasArg] at h
  | dict d => simp [parseExtrasArg] at h
  | str s =>
    cases hp : parseJson s with
    | none =>
      simp only [parseExtrasArg, hp, Except.error.injEq] at h
      exact h.symm
    | some j => cases j <;> simp [parseExtrasArg, hp] at h

/-- C8: a `record_statement` call with an unknown verb alias, or an
`object_id` that is not a valid IRI, or `extras` given as a string that
is not valid JSON, fails with an HTTP 400 error before any network call:
zero requests reach the backend, whatever the backend would answer. -/
theorem c8_fail_fast (parseJson : String → Option JVal)
    (validate : XStatement → Option String) (now : String)
    (post : XStatement → Except HErr JVal)
    (actorUuid verb objectId : String) (level : Option PyNum) (extras : ExtrasArg)
    (h : get_verb verb = none ∨ is_valid_iri objectId = false ∨
      (∃ s, extras = .str s ∧ parseJson s = none)) :
    (∃ detail, record_statement parseJson validate now post actorUuid verb objectId
        level extras = .error (.http ⟨400, detail⟩)) ∧
    recordNetworkCalls parseJson validate now actorUuid verb objectId level extras = 0 := by
  have hcore : ∃ detail,
      recordStatementCore parseJson validate now actorUuid verb objectId level extras
        = .error (.http ⟨400, detail⟩) := by
    cases hpe : parseExtrasArg parseJson extras with
    | error e =>
      obtain rfl := parseExtrasArg_error parseJson extras e hpe
      exact ⟨"extras must be valid JSON", by simp [recordStatementCore, hpe]⟩
    | ok pyExtras =>
      rcases h with hverb | hiri | ⟨s, hs, hparse⟩
      · exact ⟨"Unknown verb: " ++ verb, by simp [recordStatementCore, hpe, hverb]⟩
      · cases hv : get_verb verb with
        | none => exact ⟨"Unknown verb: " ++ verb, by simp [recordStatementCore, hpe, hv]⟩
        | some vd =>
          exact ⟨"object_id must be a valid IRI", by simp [recordStatementCore, hpe, hv, hiri]⟩
      · subst hs
        simp [parseExtrasArg, hparse] at hpe
  obtain ⟨d, hd⟩ := hcore
  refine ⟨⟨d, ?_⟩, ?_⟩
  · simp [record_statement, hd]
  · simp [recordNetworkCalls, hd]

/-- C8 witness: the fail-fast theorem applied to a concrete call with an
unknown verb alias. -/
theorem c8_fail_fast_witness :
    (∃ detail, record_statement (fun _ => none) (fun _ => none) "ts"
        (fun _ => .ok .jnull) "actor" "unknownverb" "https://example.com/a"
        none .none = .error (.http ⟨400, detail⟩)) ∧
    recordNetworkCalls (fun _ => none) (fun _ => none) "ts" "actor" "unknownverb"
      "https://example.com/a" none .none = 0 :=
  c8_fail_fast (fun _ => none) (fun _ => none) "ts" (fun _ => .ok .jnull)
    "actor" "unknownverb" "https://example.com/a" none .none (Or.inl rfl)

/-- The per-key description of the extensions mapping, stated from the
claim's words: drop `score_max` entries and rewrite each remaining key
with `rewriteExtensionKey`, in order. -/
def nonReservedRewritten (extras : List (String × JVal)) : List (String × JVal) :=
  extras.filterMap
    (fun kv => if kv.1 = "score_max" then none else some (rewriteExtensionKey kv.1, kv.2))

/-- Python dict assignment with a fresh key appends the entry. -/
theorem dictInsert_of_not_mem (k : String) (v : JVal) (acc : List (String × JVal))
    (h : ∀ kv ∈ acc, kv.1 ≠ k) : dictInsert k v acc = acc ++ [(k, v)] := by
  induction acc with
  | nil => rfl
  | cons kv' rest ih =>
    simp only [dictInsert]
    rw [if_neg (h kv' (List.mem_cons_self kv' rest)), ih]
    · rfl
    · intro kv hkv
      exact h kv (List.mem_cons_of_mem kv' hkv)

/-- The extensions-building fold agrees with the per-key description
whenever the rewritten keys do not collide with each other or with the
accumulator. -/
theorem buildExtensions_go (extras : List (String × JVal)) :
    ∀ acc : List (String × JVal),
    (acc.map Prod.fst ++ (nonReservedRewritten extras).map Prod.fst).Nodup →
    extras.foldl
      (fun acc kv =>
        if kv.1 = "score_max" then acc else dictInsert (rewriteExtensionKey kv.1) kv.2 acc)
      acc = acc ++ nonReservedRewritten extras := by
  induction extras with
  | nil =>
    intro acc _
    simp [nonReservedRewritten]
  | cons kv rest ih =>
    intro acc h
    by_cases hk : kv.1 = "score_max"
    · have hnr : nonReservedRewritten (kv :: rest) = nonReservedRewritten rest := by
        simp [nonReservedRewritten, hk]
      rw [hnr] at h
      simp only [List.foldl_cons, if_pos hk, hnr]
      exact ih acc h
    · have hnr : nonReservedRewritten (kv :: rest) =
          (rewriteExtensionKey kv.1, kv.2) :: nonReservedRewritten rest := by
        simp [nonReservedRewritten, hk]
      rw [hnr] at h
      have hsplit : (acc.map Prod.fst ++
          ((rewriteExtensionKey kv.1, kv.2) :: nonReservedRewritten rest).map Prod.fst)
          = ((acc ++ [(rewriteExtensionKey kv.1, kv.2)]).map Prod.fst
              ++ (nonReservedRewritten rest).map Prod.fst) := by
        simp
      rw [hsplit] at h
      have hfresh : ∀ kv' ∈ acc, kv'.1 ≠ rewriteExtensionKey kv.1 := by
        intro kv' hkv' heq
        rcases List.nodup_append.mp h with ⟨h1, _, _⟩
        rw [List.map_append] at h1
        rcases List.nodup_append.mp h1 with ⟨_, _, hdisj⟩
        exact hdisj (List.mem_map_of_mem Prod.fst hkv') (by simp [heq])
      simp only [List.foldl_cons, if_neg hk,
        dictInsert_of_not_mem (rewriteExtensionKey kv.1) kv.2 acc hfresh, hnr]
      rw [ih (acc ++ [(rewriteExtensionKey kv.1, kv.2)]) h]
      simp

/-- A key is left unchanged by the extension rewriting exactly when it
starts with `"http"` (the check is a literal prefix test, so a key such
as `"httpfoo"` is also kept verbatim). -/
theorem rewriteExtensionKey_fixed (k : String) :
    rewriteExtensionKey k = k ↔ pyStartsWith k "http" = true := by
  constructor
  · intro h
    by_contra hns
    rw [rewriteExtensionKey, if_neg (by simpa using hns)] at h
    have hlen := congrArg String.length h
    rw [String.length_append] at hlen
    have h40 : extensionNamespace.length = 40 := rfl
    omega
  · intro hs
    simp [rewriteExtensionKey, hs]

/-- C10: when a level is provided and `extras` is a dict whose rewritten
keys do not collide, the result block of the assembled statement carries
exactly the claim's extensions: every entry except `score_max` appears
under its original key when that key starts with the literal prefix
`"http"` and under the extension-namespace-prefixed key otherwise (in
order), and the `extensions` field is omitted exactly when every `extras`
key is `score_max`. -/
theorem c10_extensions (parseJson : String → Option JVal)
    (validate : XStatement → Option String) (now : String)
    (actorUuid verb objectId : String) (lv : PyNum)
    (extras : List (String × JVal)) (st : XStatement)
    (hnodup : ((nonReservedRewritten extras).map Prod.fst).Nodup)
    (hok : recordStatementCore parseJson validate now actorUuid verb objectId
      (some lv) (.dict extras) = .ok st) :
    ∃ rb, st.result = some rb ∧
      rb.extensions = (if (nonReservedRewritten extras).isEmpty then none
        else some (nonReservedRewritten extras)) ∧
      (∀ k, rewriteExtensionKey k = k ↔ pyStartsWith k "http" = true) ∧
      (rb.extensions = none ↔ ∀ kv ∈ extras, kv.1 = "score_max") := by
  have hbuild : buildExtensions extras = nonReservedRewritten extras := by
    have := buildExtensions_go extras [] (by simpa using hnodup)
    simpa [buildExtensions] using this
  have hpe : parseExtrasArg parseJson (.dict extras) = .ok (.jobj extras) := rfl
  rw [recordStatementCore, hpe] at hok
  cases hv : get_verb verb with
  | none => rw [hv] at hok; simp at hok
  | some vd =>
    rw [hv] at hok
    cases hiri : is_valid_iri objectId with
    | false => rw [hiri] at hok; simp at hok
    | true =>
      rw [hiri] at hok
      simp only [Bool.not_true, Bool.false_eq_true, if_false] at hok
      cases hbs : _build_score lv extras with
      | error msg => simp [buildResultBlock, hbs] at hok
      | ok score =>
        simp only [buildResultBlock, hbs] at hok
        cases hval : validate ⟨actorUuid, vd, objectId, now,
            some ⟨score, _calculate_success score,
              if (buildExtensions extras).isEmpty then none
              else some (buildExtensions extras)⟩⟩ with
        | some msg => rw [hval] at hok; simp at hok
        | none =>
          rw [hval] at hok
          simp only [Except.ok.injEq] at hok
          subst hok
          refine ⟨⟨score, _calculate_success score,
            if (buildExtensions extras).isEmpty then none
            else some (buildExtensions extras)⟩, rfl, by rw [hbuild], ?_, ?_⟩
          · exact rewriteExtensionKey_fixed
          · rw [hbuild]
            constructor
            · intro hnone kv hkv
              by_contra hne
              have hmem : (rewriteExtensionKey kv.1, kv.2) ∈ nonReservedRewritten extras := by
                simp only [nonReservedRewritten, List.mem_filterMap]
                exact ⟨kv, hkv, by rw [if_neg hne]⟩
              rcases hemp : (nonReservedRewritten extras).isEmpty with _ | _
              · rw [hemp] at hnone
                simp at hnone
              · rw [List.isEmpty_iff] at hemp
                rw [hemp] at hmem
                simp at hmem
            · intro hall
              have : nonReservedRewritten extras = [] := by
                simp only [nonReservedRewritten, List.filterMap_eq_nil_iff]
                intro kv hkv
                rw [if_pos (hall kv hkv)]
              simp [this]

/-- C10 witness: the extensions theorem applied to a concrete call with
`extras = {httpfoo: 1, note: "hi"}` and `level = 2`; the key `httpfoo`
(which starts with `"http"` without being a URI) is kept verbatim and
`note` is rewritten into the extension namespace. -/
theorem c10_extensions_witness :
    ∃ rb, (XStatement.mk "actor"
        ⟨"http://adlnet.gov/expapi/verbs/practiced", [("en-US", "practiced")]⟩
        "https://example.com/act" "ts"
        (some ⟨⟨2, 0, 3⟩, true,
          some [("httpfoo", .jnum 1),
            ("https://learnmcp.example.com/extensions/note", .jstr "hi")]⟩)).result
        = some rb ∧
      rb.extensions = (if (nonReservedRewritten
          [("httpfoo", .jnum 1), ("note", .jstr "hi")]).isEmpty then none
        else some (nonReservedRewritten [("httpfoo", .jnum 1), ("note", .jstr "hi")])) ∧
      (∀ k, rewriteExtensionKey k = k ↔ pyStartsWith k "http" = true) ∧
      (rb.extensions = none ↔
        ∀ kv ∈ [(("httpfoo" : String), JVal.jnum 1), ("note", .jstr "hi")],
          kv.1 = "score_max") :=
  c10_extensions (fun _ => none) (fun _ => none) "ts" "actor" "practiced"
    "https://example.com/act" (.int 2) [("httpfoo", .jnum 1), ("note", .jstr "hi")]
    (XStatement.mk "actor"
      ⟨"http://adlnet.gov/expapi/verbs/practiced", [("en-US", "practiced")]⟩
      "https://example.com/act" "ts"
      (some ⟨⟨2, 0, 3⟩, true,
        some [("httpfoo", .jnum 1),
          ("https://learnmcp.example.com/extensions/note", .jstr "hi")]⟩))
    (by decide)
    rfl

end LearnMcp
